import Mathlib

/-!
Verification of the deployer GitHub Action orchestrator
(`src/index.ts`): shell-argument parsing, path validation, SSH session
setup/cleanup, the deployment runner with its timeout race, and the
top-level `run` orchestrator. Each TypeScript function is embedded as a
pure Lean function; external effects (subprocess outcomes, filesystem
identity, clock) are supplied by an explicit `World`, and process state
(files, environment variables, action outputs, event trace) is threaded
as an explicit `ActionState`.
-/

namespace DeployerAction

/-- The double-quote character `"` (code 34). -/
def dquote : Char := Char.ofNat 34

/-- The single-quote character (code 39). -/
def squote : Char := Char.ofNat 39

/-! ### ShellArgumentParser (`parseShellArgs`)

The TS loop carries `current : string`, `inQuote : boolean`,
`quoteChar : string`; since `quoteChar` is only consulted when
`inQuote` is true, the pair is represented as `Option Char`
(`none` = not in a quote). -/

/-- Character-level embedding of the `parseShellArgs` loop of
`src/index.ts`. Branches in source order: an opening quote when not in
a quote; the matching closing quote; an unquoted space flushing a
non-empty `current`; otherwise append the character. The terminal case
is the trailing `if (current) args.push(current)`. -/
def parseArgsAux : List Char → List Char → Option Char → List (List Char)
  | [], current, _ => if current = [] then [] else [current]
  | c :: rest, current, q =>
    if (c = dquote ∨ c = squote) ∧ q = none then
      parseArgsAux rest current (some c)
    else if q = some c then
      parseArgsAux rest current none
    else if c = ' ' ∧ q = none then
      if current = [] then parseArgsAux rest [] none
      else current :: parseArgsAux rest [] none
    else
      parseArgsAux rest (current ++ [c]) q

/-- `parseShellArgs` from `src/index.ts`. -/
def parseShellArgs (input : String) : List String :=
  (parseArgsAux input.data [] none).map String.mk

/-! ### DeployCommand construction (from `runDeployment`) -/

/-- The argument vector built at the top of `runDeployment`:
`['deploy', environment, '--revision=' + revision]`, then the
verbosity flag when `verbosity` is truthy (non-empty), then the parsed
options when `options` is truthy. -/
def deployArgs (environment revision verbosity options : String) : List String :=
  let args := ["deploy", environment, "--revision=" ++ revision]
  let args := if verbosity ≠ "" then args ++ ["-" ++ verbosity] else args
  if options ≠ "" then args ++ parseShellArgs options else args

/-! ### PathGuard (`validatePathWithinBase`)

Node's `path.resolve` (POSIX) is modelled over `/`-separated path
strings: segments are joined left-to-right restarting at any absolute
segment, the result is prefixed by the (absolute) working directory when
still relative, and `.`/`..` components are normalized away. -/

/-- Split a path string into its nonempty `/`-separated components. -/
def splitSlash : List Char → List Char → List (List Char)
  | [], current => if current = [] then [] else [current]
  | c :: rest, current =>
    if c = '/' then
      if current = [] then splitSlash rest []
      else current :: splitSlash rest []
    else splitSlash rest (current ++ [c])

/-- Normalize an absolute component list: drop `.`, let `..` pop the
last component (a `..` at the root stays at the root). -/
def normalizeComponents (segs : List (List Char)) : List (List Char) :=
  segs.foldl
    (fun acc seg =>
      if seg = ['.'] then acc
      else if seg = ['.', '.'] then acc.dropLast
      else acc ++ [seg]) []

/-- Render an absolute component list back to a path string. -/
def renderAbs : List (List Char) → String
  | [] => "/"
  | segs => String.mk (segs.foldl (fun acc seg => acc ++ '/' :: seg) [])

/-- JS `String.prototype.startsWith` (equivalently Lean's
`String.startsWith`), phrased over the character lists. -/
def strStartsWith (s pre : String) : Bool :=
  pre.data.isPrefixOf s.data

/-- Model of Node `path.resolve(cwd; segments)`: fold the segments over
the absolute `cwd`, restarting at any absolute segment, then
normalize. -/
def resolvePath (cwd : String) (segments : List String) : String :=
  let joined := segments.foldl
    (fun acc s => if strStartsWith s "/" then s else acc ++ "/" ++ s) cwd
  renderAbs (normalizeComponents (splitSlash joined.data []))

/-- Error taxonomy of the action (each `throw new Error(...)` site). -/
inductive DeployError
  | pathEscape (target : String)
  | notFound (binary : String)
  | permissionError (binary : String)
  | verificationFailed (binary : String) (exitCode : Int)
  | agentParseError
  | sshAddError
  | deploymentFailed (exitCode : Int)
  | deploymentTimeout (ms : Int)
  | invalidTimeout (raw : String)
  deriving DecidableEq, Repr

/-- `validatePathWithinBase` from `src/index.ts`: resolve the base and
the target against the base, and reject unless the resolved target
string starts with the resolved base string. `cwd` stands for the
process working directory that `path.resolve` consults. -/
def validatePathWithinBase (cwd basePath targetPath : String) :
    Except DeployError Unit :=
  let resolvedBase := resolvePath cwd [basePath]
  let resolvedTarget := resolvePath cwd [basePath, targetPath]
  if strStartsWith resolvedTarget resolvedBase then Except.ok ()
  else Except.error (DeployError.pathEscape targetPath)

/-! ### JS number semantics for the timeout input

`parseInt(s, 10)` skips leading whitespace, reads an optional sign and
then leading decimal digits, and yields `NaN` when no digit was read.
`NaN` and `0` are both falsy, which matters for the timeout checks. -/

/-- A JS number restricted to what `parseInt` can produce. -/
inductive JsNum
  | nan
  | num (i : Int)
  deriving DecidableEq, Repr

/-- JS truthiness of a number: `NaN` and `0` are falsy. -/
def JsNum.truthy : JsNum → Bool
  | JsNum.nan => false
  | JsNum.num i => i ≠ 0

/-- JS truthiness of `number | undefined` (`none` = `undefined`). -/
def optTruthy : Option JsNum → Bool
  | none => false
  | some j => j.truthy

/-- `isNaN(x)` on a JS number. -/
def JsNum.isNan : JsNum → Bool
  | JsNum.nan => true
  | JsNum.num _ => false

/-- `x <= 0` on a JS number (`NaN <= 0` is `false`). -/
def JsNum.le0 : JsNum → Bool
  | JsNum.nan => false
  | JsNum.num i => i ≤ 0

/-- Accumulate leading decimal digits, stopping at the first
non-digit. -/
def digitsAcc : List Char → Nat → Nat
  | [], acc => acc
  | c :: rest, acc =>
    if c.isDigit then digitsAcc rest (acc * 10 + (c.toNat - 48)) else acc

/-- Value of the leading decimal-digit run; `none` when the first char
is not a digit (`parseInt` then yields `NaN`). -/
def digitsValue : List Char → Option Nat
  | [] => none
  | c :: rest =>
    if c.isDigit then some (digitsAcc rest (c.toNat - 48)) else none

/-- Model of JS `parseInt(s, 10)`. -/
def jsParseInt (s : String) : JsNum :=
  let chars := s.data.dropWhile (fun c => c = ' ' ∨ c = '\t' ∨ c = '\n')
  match chars with
  | [] => JsNum.nan
  | c :: rest =>
    let (neg, digits) :=
      if c = '-' then (true, rest)
      else if c = '+' then (false, rest)
      else (false, c :: rest)
    match digitsValue digits with
    | none => JsNum.nan
    | some n => JsNum.num (if neg then -(n : Int) else (n : Int))

/-! ### World, state and events

`World` fixes everything the action observes from the outside:
process identity (home, tmp, cwd, clock) and the outcome of every
subprocess interaction. `ActionState` is the mutable process state the
action itself writes: filesystem artifacts, exported environment
variables, action outputs, the failure message, and an ordered trace of
the reporting/cleanup events (`core.setOutput`, `core.setFailed`, and
entry into `cleanupSSH`). -/

/-- The `ActionInputs` record of `src/index.ts` (all string-typed). -/
structure ActionInputs where
  sshPrivateKey : String
  environment : String
  revision : String
  deployerBinary : String
  sshKnownHosts : String
  sshPort : String
  workingDirectory : String
  verbosity : String
  options : String
  timeout : String
  deriving DecidableEq, Repr

/-- External observations of one run. -/
structure World where
  homedir : String
  tmpdir : String
  cwd : String
  timestamp : Nat
  agentParseOk : Bool
  agentSock : String
  agentPid : String
  sshAddOk : Bool
  binaryExists : Bool
  binaryExecutable : Bool
  chmodOk : Bool
  versionExitCode : Int
  versionStdout : String
  execRuntime : Int
  tieTimer : Bool
  deployExitCode : Int
  deployOutput : String
  deriving Repr

/-- Reporting and cleanup events, in the order the code performs
them. -/
inductive Event
  | setOutput (name value : String)
  | setFailed (msg : String)
  | cleanup
  deriving DecidableEq, Repr

/-- Process state written by the action. -/
structure ActionState where
  files : List String
  gitSshCommand : Option String
  sshAuthSock : Option String
  sshAgentPid : Option String
  outputs : List (String × String)
  failed : Option String
  trace : List Event
  deriving DecidableEq, Repr

/-- The state at process start: no artifacts, no exports, no outputs. -/
def initState : ActionState :=
  { files := [], gitSshCommand := none, sshAuthSock := none,
    sshAgentPid := none, outputs := [], failed := none, trace := [] }

/-- `fs.writeFile` (create or overwrite). -/
def writeFile (st : ActionState) (p : String) : ActionState :=
  { st with files := if p ∈ st.files then st.files else st.files ++ [p] }

/-- `fs.unlink` inside a try/catch that swallows the error: the path is
gone afterwards whether or not it existed. -/
def unlink (st : ActionState) (p : String) : ActionState :=
  { st with files := st.files.filter (fun q => q ≠ p) }

/-- `core.setOutput`. -/
def setOutput (st : ActionState) (name value : String) : ActionState :=
  { st with outputs := st.outputs ++ [(name, value)],
            trace := st.trace ++ [Event.setOutput name value] }

/-- `core.setFailed`. -/
def setFailed (st : ActionState) (msg : String) : ActionState :=
  { st with failed := some msg, trace := st.trace ++ [Event.setFailed msg] }

/-- The value an output name ends up with (last `setOutput` wins). -/
def getOutput (st : ActionState) (name : String) : Option String :=
  (st.outputs.reverse.find? (fun p => p.1 = name)).map (fun p => p.2)

/-- `~/.ssh` for a world. -/
def sshDir (w : World) : String := w.homedir ++ "/.ssh"

/-- The session private-key path (`deployer_action_key`). -/
def privateKeyPath (w : World) : String := sshDir w ++ "/deployer_action_key"

/-- The session known-hosts path (`deployer_action_known_hosts`). -/
def knownHostsPath (w : World) : String :=
  sshDir w ++ "/deployer_action_known_hosts"

/-- The per-run SSH config path (`ssh_config_deployer_<Date.now()>`
under the temporary directory). -/
def sshConfigPathOf (w : World) : String :=
  w.tmpdir ++ "/ssh_config_deployer_" ++ toString w.timestamp

/-! ### SessionCredentialManager (`setupSSH`) -/

/-- `setupSSH` from `src/index.ts`: write key, optional known-hosts,
and the session SSH config; export `GIT_SSH_COMMAND`; start the agent
and parse its output (throwing when the socket or PID cannot be
extracted); export `SSH_AUTH_SOCK`/`SSH_AGENT_PID`; `ssh-add` the key
(throwing on failure). Returns the config path. -/
def setupSSH (_privateKey knownHosts _port : String) (w : World)
    (st : ActionState) : ActionState × Except DeployError String :=
  let configPath := sshConfigPathOf w
  let st := writeFile st (privateKeyPath w)
  let st := if knownHosts ≠ "" then writeFile st (knownHostsPath w) else st
  let st := writeFile st configPath
  let st := { st with gitSshCommand := some ("ssh -F " ++ configPath) }
  if ¬ w.agentParseOk then
    (st, Except.error DeployError.agentParseError)
  else
    let st := { st with sshAuthSock := some w.agentSock,
                        sshAgentPid := some w.agentPid }
    if ¬ w.sshAddOk then
      (st, Except.error DeployError.sshAddError)
    else
      (st, Except.ok configPath)

/-! ### BinaryVerifier (`verifyDeployerBinary`) -/

/-- `verifyDeployerBinary` from `src/index.ts`: PathGuard check, then
existence, then executability (self-healed by a `chmod 0755` whose own
failure is fatal), then the `--version` probe which must exit 0 with
non-empty stdout. -/
def verifyDeployerBinary (binaryPath workingDir : String) (w : World) :
    Except DeployError Unit :=
  match validatePathWithinBase w.cwd workingDir binaryPath with
  | Except.error e => Except.error e
  | Except.ok _ =>
    if ¬ w.binaryExists then
      Except.error (DeployError.notFound binaryPath)
    else if ¬ w.binaryExecutable ∧ ¬ w.chmodOk then
      Except.error (DeployError.permissionError binaryPath)
    else if w.versionExitCode ≠ 0 ∨ w.versionStdout = "" then
      Except.error (DeployError.verificationFailed binaryPath w.versionExitCode)
    else
      Except.ok ()

/-! ### DeploymentRunner (`runDeployment`)

The subprocess runs for `w.execRuntime` ms; when a truthy timeout is
configured a timer of `timeoutMs` ms races it (`Promise.race`); the
timer wins strictly earlier, and a simultaneous settlement is resolved
by `w.tieTimer`. The `finally` block clears the timer handle whenever
one was set. -/

deriving instance DecidableEq for Except

/-- Outcome of `runDeployment`: its resolved/rejected value plus
whether a timer was scheduled and whether it was cleared. -/
structure DeployOutcome where
  result : Except DeployError String
  args : List String
  timerSet : Bool
  timerCancelled : Bool
  deriving DecidableEq, Repr

/-- Whether the timeout timer settles the race before the subprocess
does. -/
def timerFirst (t : Int) (w : World) : Bool :=
  t < w.execRuntime ∨ (t = w.execRuntime ∧ w.tieTimer)

/-- `runDeployment` from `src/index.ts`: build the argument vector,
race the subprocess against the optional timer, clear the timer in the
`finally`, and turn a non-zero exit code into `DeploymentFailed`. On
success the accumulated combined output is returned. -/
def runDeployment (_deployerBinary environment revision _workingDir
    verbosity options : String) (timeoutMs : Option JsNum) (w : World) :
    DeployOutcome :=
  let args := deployArgs environment revision verbosity options
  let timerSet := optTruthy timeoutMs
  let raced : Except DeployError Int :=
    match timeoutMs with
    | some (JsNum.num t) =>
      if t ≠ 0 then
        if timerFirst t w then Except.error (DeployError.deploymentTimeout t)
        else Except.ok w.deployExitCode
      else Except.ok w.deployExitCode
    | _ => Except.ok w.deployExitCode
  let result : Except DeployError String :=
    match raced with
    | Except.error e => Except.error e
    | Except.ok code =>
      if code ≠ 0 then Except.error (DeployError.deploymentFailed code)
      else Except.ok w.deployOutput
  { result := result, args := args, timerSet := timerSet,
    timerCancelled := timerSet }

/-! ### SessionCleaner (`cleanupSSH`) -/

/-- Whether a path is a multiplexing control socket in the temporary
directory (`readdir(tmpDir)` entries starting with `ssh_mux_`). -/
def muxSocketInTmp (tmpdir p : String) : Bool :=
  (tmpdir ++ "/ssh_mux_").data.isPrefixOf p.data

/-- `cleanupSSH` from `src/index.ts`: best-effort unlink of the private
key, the known-hosts file, the session config (only when a path was
supplied), every `ssh_mux_*` entry of the temporary directory, and an
`ssh-agent -k` when `SSH_AGENT_PID` is exported. Each step swallows its
own errors; the environment variables are never touched. -/
def cleanupSSH (configPath : Option String) (w : World)
    (st : ActionState) : ActionState :=
  let st := { st with trace := st.trace ++ [Event.cleanup] }
  let st := unlink st (privateKeyPath w)
  let st := unlink st (knownHostsPath w)
  let st :=
    match configPath with
    | some p => unlink st p
    | none => st
  let st := { st with
    files := st.files.filter (fun f => ¬ muxSocketInTmp w.tmpdir f) }
  st

/-! ### Orchestrator (`run`) -/

/-- The body of the `try` block of `run`: setup, verify, timeout
parse/validation, deployment. Returns the state, the session config
path obtained so far (`sshConfigPath` is only assigned once `setupSSH`
resolves, so it is `none` when setup itself threw), and the result. -/
def mainSequence (inputs : ActionInputs) (w : World) (st : ActionState) :
    ActionState × Option String × Except DeployError String :=
  match setupSSH inputs.sshPrivateKey inputs.sshKnownHosts inputs.sshPort w st with
  | (st, Except.error e) => (st, none, Except.error e)
  | (st, Except.ok configPath) =>
    match verifyDeployerBinary inputs.deployerBinary inputs.workingDirectory w with
    | Except.error e => (st, some configPath, Except.error e)
    | Except.ok _ =>
      let timeoutMs : Option JsNum :=
        if inputs.timeout ≠ "" then some (jsParseInt inputs.timeout) else none
      if optTruthy timeoutMs &&
          (match timeoutMs with
           | some j => j.isNan || j.le0
           | none => false) then
        (st, some configPath, Except.error (DeployError.invalidTimeout inputs.timeout))
      else
        let outcome := runDeployment inputs.deployerBinary inputs.environment
          inputs.revision inputs.workingDirectory inputs.verbosity
          inputs.options timeoutMs w
        (st, some configPath, outcome.result)

/-- The human-readable messages of the `throw new Error(...)` sites
that `run`'s catch block surfaces. -/
def errorMessage : DeployError → String
  | DeployError.pathEscape target =>
      "Path " ++ squote.toString ++ target ++ squote.toString ++
        " is outside the working directory"
  | DeployError.notFound binary =>
      "Deployer binary not found at " ++ squote.toString ++ binary ++
        squote.toString ++ ". Make sure Deployer is installed via Composer or provide the correct path."
  | DeployError.permissionError binary =>
      "Failed to make " ++ binary ++ " executable"
  | DeployError.verificationFailed binary exitCode =>
      "Failed to verify Deployer binary at " ++ squote.toString ++ binary ++
        squote.toString ++ ". The binary exists but could not be executed. Exit code: " ++
        toString exitCode
  | DeployError.agentParseError =>
      "Failed to parse ssh-agent output. Could not extract SSH_AUTH_SOCK or SSH_AGENT_PID."
  | DeployError.sshAddError =>
      "ssh-add failed"
  | DeployError.deploymentFailed exitCode =>
      "Deployer command failed with exit code " ++ toString exitCode
  | DeployError.deploymentTimeout ms =>
      "Deployment timed out after " ++ toString ms ++ "ms"
  | DeployError.invalidTimeout raw =>
      "Invalid timeout value: " ++ raw ++ ". Must be a positive number in milliseconds."

/-- `run` from `src/index.ts`: on success of the main sequence, set
`deployment-status` to `success`, set `deployer-output`, then clean up;
on any failure, `setFailed` with the error message, set
`deployment-status` to `failed`, then clean up with whatever config
path was obtained. -/
def run (inputs : ActionInputs) (w : World) : ActionState :=
  match mainSequence inputs w initState with
  | (st, cp, Except.ok output) =>
    let st := setOutput st "deployment-status" "success"
    let st := setOutput st "deployer-output" output
    cleanupSSH cp w st
  | (st, cp, Except.error e) =>
    let st := setFailed st ("Action failed: " ++ errorMessage e)
    let st := setOutput st "deployment-status" "failed"
    cleanupSSH cp w st

/-! ### Concrete fixtures -/

/-- A world where every external interaction succeeds. -/
def wHappy : World :=
  { homedir := "/home/u", tmpdir := "/tmp", cwd := "/w", timestamp := 123,
    agentParseOk := true, agentSock := "/tmp/agent.sock", agentPid := "42",
    sshAddOk := true, binaryExists := true, binaryExecutable := true,
    chmodOk := true, versionExitCode := 0, versionStdout := "Deployer 7.0",
    execRuntime := 10, tieTimer := false, deployExitCode := 0,
    deployOutput := "OK" }

/-- A world where the deployment subprocess exits with code 1. -/
def wDeployFail : World := { wHappy with deployExitCode := 1 }

/-- A world where the ssh-agent announcement cannot be parsed
(step 5 of session setup fails). -/
def wAgentFail : World := { wHappy with agentParseOk := false }

/-- A world whose deployment subprocess runs for 100 ms. -/
def wSlow : World := { wHappy with execRuntime := 100 }

/-- A world where registering the key with the agent (`ssh-add`,
step 7 of session setup) fails. -/
def wAddFail : World := { wHappy with sshAddOk := false }

/-- Baseline inputs (no verbosity, options or timeout). -/
def iBase : ActionInputs :=
  { sshPrivateKey := "KEY", environment := "production", revision := "abc123",
    deployerBinary := "vendor/bin/dep", sshKnownHosts := "host ssh-rsa AAA",
    sshPort := "22", workingDirectory := ".", verbosity := "",
    options := "", timeout := "" }

/-! ### Structural lemmas -/

/-- `setupSSH` only writes files and environment variables: the action
outputs and the event trace pass through unchanged. -/
theorem setupSSH_fst_outputs (pk kh port : String) (w : World) (st : ActionState) :
    ((setupSSH pk kh port w st).1).outputs = st.outputs ∧
    ((setupSSH pk kh port w st).1).trace = st.trace := by
  unfold setupSSH writeFile
  dsimp only
  split
  · simp [apply_ite ActionState.outputs, apply_ite ActionState.trace]
  · split <;> simp [apply_ite ActionState.outputs, apply_ite ActionState.trace]

/-- `cleanupSSH` records one cleanup event and leaves the action
outputs unchanged. -/
theorem cleanupSSH_outputs (cp : Option String) (w : World) (st : ActionState) :
    (cleanupSSH cp w st).outputs = st.outputs ∧
    (cleanupSSH cp w st).trace = st.trace ++ [Event.cleanup] := by
  unfold cleanupSSH unlink
  cases cp <;> simp

/-- The state coming out of the main sequence is exactly the state
`setupSSH` left behind (verification, validation and the deployment
runner do not write the action's process state). -/
theorem mainSequence_fst (i : ActionInputs) (w : World) (st : ActionState) :
    (mainSequence i w st).1
      = (setupSSH i.sshPrivateKey i.sshKnownHosts i.sshPort w st).1 := by
  unfold mainSequence
  rcases hs : setupSSH i.sshPrivateKey i.sshKnownHosts i.sshPort w st with ⟨st1, res⟩
  cases res with
  | error e => rfl
  | ok cp =>
    cases hv : verifyDeployerBinary i.deployerBinary i.workingDirectory w with
    | error e => rfl
    | ok u =>
      dsimp only
      split <;> first | rfl | (split <;> rfl)

/-- When `runDeployment` resolves, its value is the accumulated
combined output of the subprocess. -/
theorem runDeployment_ok_output (b e r wd v o : String) (tm : Option JsNum)
    (w : World) (out : String)
    (h : (runDeployment b e r wd v o tm w).result = Except.ok out) :
    out = w.deployOutput := by
  unfold runDeployment at h
  dsimp only at h
  split at h
  · simp at h
  · split at h
    · simp at h
    · simp at h; exact h.symm

/-- When the main sequence resolves, its value is the deployment
subprocess's accumulated combined output. -/
theorem mainSequence_ok_output (i : ActionInputs) (w : World)
    (st st' : ActionState) (cp : Option String) (out : String)
    (h : mainSequence i w st = (st', cp, Except.ok out)) :
    out = w.deployOutput := by
  unfold mainSequence at h
  rcases hs : setupSSH i.sshPrivateKey i.sshKnownHosts i.sshPort w st with ⟨st1, res⟩
  rw [hs] at h
  cases res with
  | error e => simp at h
  | ok cfg =>
    cases hv : verifyDeployerBinary i.deployerBinary i.workingDirectory w with
    | error e => rw [hv] at h; simp at h
    | ok u =>
      rw [hv] at h
      dsimp only at h
      split at h <;> split at h <;> simp at h <;>
        exact runDeployment_ok_output _ _ _ _ _ _ _ w out h.2.2

/-- `setupSSH` leaves the outputs untouched. -/
theorem setupSSH_outputs_eq (pk kh port : String) (w : World) (st : ActionState) :
    ((setupSSH pk kh port w st).1).outputs = st.outputs :=
  (setupSSH_fst_outputs pk kh port w st).1

/-- `cleanupSSH` leaves the outputs untouched. -/
theorem cleanupSSH_outputs_eq (cp : Option String) (w : World) (st : ActionState) :
    (cleanupSSH cp w st).outputs = st.outputs :=
  (cleanupSSH_outputs cp w st).1

/-- `cleanupSSH` appends exactly one cleanup event to the trace. -/
theorem cleanupSSH_trace_eq (cp : Option String) (w : World) (st : ActionState) :
    (cleanupSSH cp w st).trace = st.trace ++ [Event.cleanup] :=
  (cleanupSSH_outputs cp w st).2

/-! ### Claims -/

/-- C1 (counterexample): the claim that both outputs are set by
termination of every run fails — in a run whose deployment subprocess
exits with code 1 the run terminates with `deployment-status` set to
`failed` but `deployer-output` not set at all (the catch block of `run`
never sets it). -/
theorem claim1_counterexample :
    getOutput (run iBase wDeployFail) "deployment-status" = some "failed" ∧
    getOutput (run iBase wDeployFail) "deployer-output" = none := by
  decide

/-- C1 (amended): every run terminates with `deployment-status` set to
`success` or `failed`; `deployer-output` is set — to the full captured
combined stream text — exactly when the run succeeds, and is left unset
on failure. -/
theorem claim1_amended_outputs (inputs : ActionInputs) (w : World) :
    (getOutput (run inputs w) "deployment-status" = some "success" ∧
     getOutput (run inputs w) "deployer-output" = some w.deployOutput) ∨
    (getOutput (run inputs w) "deployment-status" = some "failed" ∧
     getOutput (run inputs w) "deployer-output" = none) := by
  unfold run
  rcases hm : mainSequence inputs w initState with ⟨st1, cp, res⟩
  have h1 : st1.outputs = [] := by
    have h2 := mainSequence_fst inputs w initState
    rw [hm] at h2
    dsimp at h2
    rw [h2]
    exact setupSSH_outputs_eq _ _ _ w initState
  cases res with
  | ok out =>
    have hout : out = w.deployOutput :=
      mainSequence_ok_output inputs w initState st1 cp out hm
    left
    constructor <;>
      simp [getOutput, setOutput, cleanupSSH_outputs_eq, h1, hout, List.find?]
  | error e =>
    right
    constructor <;>
      simp [getOutput, setOutput, setFailed, cleanupSSH_outputs_eq, h1,
        List.find?]

/-- C2 (counterexample): the claim that cleanup is attempted before the
run reports its outcome fails — in a fully successful concrete run the
trace is exactly `setOutput deployment-status`, `setOutput
deployer-output`, then cleanup, and nowhere does a cleanup event
precede the `deployment-status` report. -/
theorem claim2_counterexample :
    (run iBase wHappy).trace
      = [Event.setOutput "deployment-status" "success",
         Event.setOutput "deployer-output" "OK", Event.cleanup] ∧
    ¬ List.Sublist [Event.cleanup, Event.setOutput "deployment-status" "success"]
        (run iBase wHappy).trace := by
  decide

/-- C2 (amended): after the deployment phase resolves, cleanup is
always attempted — it is the final event of every run — but only after
the outcome has already been reported: the `deployment-status` output
is written before the cleanup attempt, not after it. -/
theorem claim2_amended_cleanup_after_report (inputs : ActionInputs) (w : World) :
    ∃ v rest, (run inputs w).trace = rest ++ [Event.cleanup] ∧
      Event.setOutput "deployment-status" v ∈ rest := by
  unfold run
  rcases hm : mainSequence inputs w initState with ⟨st1, cp, res⟩
  have h1 : st1.trace = [] := by
    have h2 := mainSequence_fst inputs w initState
    rw [hm] at h2
    dsimp at h2
    rw [h2]
    exact (setupSSH_fst_outputs _ _ _ w initState).2
  cases res with
  | ok out =>
    refine ⟨"success", [Event.setOutput "deployment-status" "success",
      Event.setOutput "deployer-output" out], ?_, by simp⟩
    rw [cleanupSSH_trace_eq]
    simp [setOutput, h1]
  | error e =>
    refine ⟨"failed", [Event.setFailed ("Action failed: " ++ errorMessage e),
      Event.setOutput "deployment-status" "failed"], ?_, by simp⟩
    rw [cleanupSSH_trace_eq]
    simp [setOutput, setFailed, h1]

/-- Parsing the empty options string yields no tokens. -/
theorem parseShellArgs_nil : parseShellArgs "" = [] := rfl

/-- C3: the claim that every non-positive or non-numeric timeout string
raises the configuration error fails on the code — `parseInt('abc')` is
`NaN`, which is falsy, so the guard `timeoutMs && (isNaN(timeoutMs) ||
timeoutMs <= 0)` never fires and the run proceeds to a successful
deployment with no timer at all; the string `'0'` is likewise accepted.
This contradicts the code's own dead `isNaN` check and its error
message, so the code, not the claim, is wrong. -/
theorem claim3_nonnumeric_timeout_not_rejected :
    jsParseInt "abc" = JsNum.nan ∧
    (run { iBase with timeout := "abc" } wHappy).failed = none ∧
    getOutput (run { iBase with timeout := "abc" } wHappy) "deployment-status"
      = some "success" ∧
    (runDeployment "vendor/bin/dep" "production" "abc123" "." "" ""
        (some JsNum.nan) wHappy).timerSet = false ∧
    (run { iBase with timeout := "0" } wHappy).failed = none := by
  decide

/-- C4: the claim that path validation rejects sibling directories
sharing the base's string prefix fails on the code — the guard is a
plain string `startsWith` on the resolved paths, so with working
directory `/w` and base `app` the candidate `../app-backup/x` resolves
to `/w/app-backup/x`, which starts with `/w/app` and is accepted even
though it lies outside the base. The documented examples
(`vendor/bin/dep` accepted, `../secrets` and `/etc/passwd` rejected) do
hold. -/
theorem claim4_pathguard_accepts_sibling :
    validatePathWithinBase "/w" "app" "vendor/bin/dep" = Except.ok () ∧
    validatePathWithinBase "/w" "app" "../secrets"
      = Except.error (DeployError.pathEscape "../secrets") ∧
    validatePathWithinBase "/w" "app" "/etc/passwd"
      = Except.error (DeployError.pathEscape "/etc/passwd") ∧
    resolvePath "/w" ["app", "../app-backup/x"] = "/w/app-backup/x" ∧
    resolvePath "/w" ["app"] = "/w/app" ∧
    validatePathWithinBase "/w" "app" "../app-backup/x" = Except.ok () := by
  decide

/-- C5: the claim that cleanup after a step-5 or step-7 setup failure
removes every artifact already created fails on the code — when
`setupSSH` throws, `sshConfigPath` in `run` was never assigned, so the
catch block invokes cleanup with no config path and the already-written
session config file survives cleanup (the key file is removed). This
happens for both the agent-parse failure (step 5) and the `ssh-add`
failure (step 7). -/
theorem claim5_config_file_survives_cleanup :
    sshConfigPathOf wAgentFail = "/tmp/ssh_config_deployer_123" ∧
    Event.cleanup ∈ (run iBase wAgentFail).trace ∧
    privateKeyPath wAgentFail ∉ (run iBase wAgentFail).files ∧
    sshConfigPathOf wAgentFail ∈ (run iBase wAgentFail).files ∧
    Event.cleanup ∈ (run iBase wAddFail).trace ∧
    sshConfigPathOf wAddFail ∈ (run iBase wAddFail).files := by
  decide

/-- C6: with a configured positive timeout strictly shorter than the
subprocess's runtime, `runDeployment` resolves with `DeploymentTimeout`
carrying the configured duration — never a spurious success — and on
either outcome of the race the timer handle is cancelled. -/
theorem claim6_timeout_race (b env rev wd verb opts : String) (t : Int)
    (w : World) (hpos : 0 < t) :
    (t < w.execRuntime →
      (runDeployment b env rev wd verb opts (some (JsNum.num t)) w).result
        = Except.error (DeployError.deploymentTimeout t)) ∧
    (runDeployment b env rev wd verb opts (some (JsNum.num t)) w).timerCancelled
      = true := by
  constructor
  · intro hlt
    simp [runDeployment, timerFirst, hpos.ne', hlt]
  · simp [runDeployment, optTruthy, JsNum.truthy, hpos.ne']

/-- C6 (witness): timeout 5 ms against a 100 ms subprocess yields the
`DeploymentTimeout` failure carrying 5, with the timer cancelled. -/
theorem claim6_timeout_race_witness :
    (0 : Int) < 5 ∧ (5 : Int) < wSlow.execRuntime ∧
    (runDeployment "vendor/bin/dep" "production" "abc123" "." "" ""
        (some (JsNum.num 5)) wSlow).result
      = Except.error (DeployError.deploymentTimeout 5) ∧
    (runDeployment "vendor/bin/dep" "production" "abc123" "." "" ""
        (some (JsNum.num 5)) wSlow).timerCancelled = true :=
  ⟨by decide, by decide,
    (claim6_timeout_race "vendor/bin/dep" "production" "abc123" "." "" ""
      5 wSlow (by decide)).1 (by decide),
    (claim6_timeout_race "vendor/bin/dep" "production" "abc123" "." "" ""
      5 wSlow (by decide)).2⟩

/-- C7: the built command vector is always
`['deploy', environment, '--revision=' + revision]`, then the verbosity
flag when verbosity is non-empty, then the parsed extra-options tokens,
in that order; in particular the documented example yields exactly
`['deploy','production','--revision=abc123','-vv','--parallel','--limit=5']`. -/
theorem claim7_deploy_command_vector :
    (∀ environment revision verbosity options : String,
      deployArgs environment revision verbosity options
        = ["deploy", environment, "--revision=" ++ revision]
          ++ (if verbosity ≠ "" then ["-" ++ verbosity] else [])
          ++ parseShellArgs options) ∧
    deployArgs "production" "abc123" "vv" "--parallel --limit=5"
      = ["deploy", "production", "--revision=abc123", "-vv",
         "--parallel", "--limit=5"] := by
  constructor
  · intro environment revision verbosity options
    unfold deployArgs
    by_cases hv : verbosity = "" <;> by_cases ho : options = "" <;>
      simp [hv, ho, parseShellArgs_nil]
  · decide

/-- C9: any non-empty verbosity string is appended verbatim as
`'-' + verbosity` with no validation against the documented
`v`/`vv`/`vvv` levels. -/
theorem claim9_verbosity_unvalidated
    (environment revision verbosity options : String) (h : verbosity ≠ "") :
    deployArgs environment revision verbosity options
      = ["deploy", environment, "--revision=" ++ revision, "-" ++ verbosity]
        ++ parseShellArgs options := by
  unfold deployArgs
  by_cases ho : options = "" <;> simp [h, ho, parseShellArgs_nil]

/-- C9 (witness): the undocumented verbosity `x` produces the argument
`-x`. -/
theorem claim9_verbosity_unvalidated_witness :
    ("x" : String) ≠ "" ∧
    deployArgs "production" "abc123" "x" "--flag"
      = ["deploy", "production", "--revision=abc123", "-x", "--flag"] :=
  ⟨by decide,
    by rw [claim9_verbosity_unvalidated "production" "abc123" "x" "--flag"
      (by decide)]; rfl⟩

/-- C10: `cleanupSSH` never unsets the exported environment variables
(`GIT_SSH_COMMAND`, `SSH_AUTH_SOCK`, `SSH_AGENT_PID`); after a full
successful run they all remain set, with `GIT_SSH_COMMAND` still
referencing the session config file that cleanup has deleted. -/
theorem claim10_cleanup_preserves_env :
    (∀ (cp : Option String) (w : World) (st : ActionState),
      (cleanupSSH cp w st).gitSshCommand = st.gitSshCommand ∧
      (cleanupSSH cp w st).sshAuthSock = st.sshAuthSock ∧
      (cleanupSSH cp w st).sshAgentPid = st.sshAgentPid) ∧
    ((run iBase wHappy).gitSshCommand
        = some ("ssh -F " ++ sshConfigPathOf wHappy) ∧
      sshConfigPathOf wHappy ∉ (run iBase wHappy).files ∧
      (run iBase wHappy).sshAuthSock = some wHappy.agentSock ∧
      (run iBase wHappy).sshAgentPid = some wHappy.agentPid) := by
  constructor
  · intro cp w st
    unfold cleanupSSH unlink
    cases cp <;> simp
  · decide

/-! ### Idempotence of the shell-argument parser on clean tokens -/

/-- A character that is neither a space nor either quote. -/
def cleanChar (c : Char) : Prop := c ≠ ' ' ∧ c ≠ dquote ∧ c ≠ squote

instance cleanCharDecidable (c : Char) : Decidable (cleanChar c) :=
  inferInstanceAs (Decidable (c ≠ ' ' ∧ c ≠ dquote ∧ c ≠ squote))

/-- The single-space join of a token list, as the claim states it. -/
def joinSpace : List String → String
  | [] => ""
  | [t] => t
  | t :: t' :: ts => t ++ " " ++ joinSpace (t' :: ts)

/-- Character-level counterpart of `joinSpace`. -/
def joinSpaceChars : List (List Char) → List Char
  | [] => []
  | [t] => t
  | t :: t' :: ts => t ++ ' ' :: joinSpaceChars (t' :: ts)

/-- String concatenation concatenates the character lists. -/
theorem strData_append (x y : String) : (x ++ y).data = x.data ++ y.data := by
  cases x; cases y; rfl

/-- `joinSpace` over packed tokens joins the character lists. -/
theorem joinSpace_data : ∀ toks : List (List Char),
    (joinSpace (toks.map String.mk)).data = joinSpaceChars toks
  | [] => rfl
  | [_] => rfl
  | t :: t' :: ts => by
    have ih := joinSpace_data (t' :: ts)
    show (String.mk t ++ " " ++ joinSpace ((t' :: ts).map String.mk)).data
      = t ++ ' ' :: joinSpaceChars (t' :: ts)
    rw [strData_append, strData_append, ih]
    simp

/-- Unfolding equation of `parseArgsAux` at a cons cell. -/
theorem parseArgsAux_cons (c : Char) (rest cur : List Char) (q : Option Char) :
    parseArgsAux (c :: rest) cur q =
      if (c = dquote ∨ c = squote) ∧ q = none then
        parseArgsAux rest cur (some c)
      else if q = some c then
        parseArgsAux rest cur none
      else if c = ' ' ∧ q = none then
        if cur = [] then parseArgsAux rest [] none
        else cur :: parseArgsAux rest [] none
      else
        parseArgsAux rest (cur ++ [c]) q := rfl

/-- Unfolding equation of `parseArgsAux` at the end of input. -/
theorem parseArgsAux_nil (cur : List Char) (q : Option Char) :
    parseArgsAux [] cur q = if cur = [] then [] else [cur] := rfl

/-- The parser never emits an empty token (`if (current)` guards every
push). -/
theorem parseArgsAux_ne_nil (l : List Char) : ∀ (cur : List Char) (q : Option Char),
    [] ∉ parseArgsAux l cur q := by
  induction l with
  | nil =>
    intro cur q
    rw [parseArgsAux_nil]
    split
    · simp
    · simp only [List.mem_singleton]
      intro hh
      exact absurd hh.symm (by assumption)
  | cons c rest ih =>
    intro cur q
    rw [parseArgsAux_cons]
    split
    · exact ih cur (some c)
    · split
      · exact ih cur none
      · split
        · split
          · exact ih [] none
          · intro hmem
            rcases List.mem_cons.mp hmem with h1 | h2
            · exact absurd h1.symm (by assumption)
            · exact ih [] none h2
        · exact ih (cur ++ [c]) q

/-- Outside a quote, a run of clean characters is simply appended to
the current token. -/
theorem parseArgsAux_clean_chars (cs : List Char) : ∀ (rest cur : List Char),
    (∀ c ∈ cs, cleanChar c) →
    parseArgsAux (cs ++ rest) cur none = parseArgsAux rest (cur ++ cs) none := by
  induction cs with
  | nil => intro rest cur _; simp
  | cons c cs ih =>
    intro rest cur h
    have hc : cleanChar c := h c (List.mem_cons_self c cs)
    have hcs : ∀ x ∈ cs, cleanChar x := fun x hx => h x (List.mem_cons_of_mem c hx)
    have hA : ¬((c = dquote ∨ c = squote) ∧ (none : Option Char) = none) := by
      rintro ⟨h1 | h1, -⟩
      · exact hc.2.1 h1
      · exact hc.2.2 h1
    have hB : (none : Option Char) ≠ some c := by simp
    have hC : ¬(c = ' ' ∧ (none : Option Char) = none) := by
      rintro ⟨h1, -⟩
      exact hc.1 h1
    show parseArgsAux (c :: (cs ++ rest)) cur none = _
    rw [parseArgsAux_cons, if_neg hA, if_neg hB, if_neg hC,
      ih rest (cur ++ [c]) hcs, List.append_assoc, List.singleton_append]

/-- Parsing the single-space join of nonempty clean tokens returns
exactly those tokens. -/
theorem parseArgsAux_join (toks : List (List Char))
    (h : ∀ t ∈ toks, t ≠ [] ∧ ∀ c ∈ t, cleanChar c) :
    parseArgsAux (joinSpaceChars toks) [] none = toks := by
  induction toks with
  | nil => rfl
  | cons t ts ih =>
    cases ts with
    | nil =>
      have ht := h t (by simp)
      show parseArgsAux t [] none = [t]
      have h2 := parseArgsAux_clean_chars t [] [] ht.2
      rw [List.append_nil] at h2
      rw [h2, parseArgsAux_nil]
      simp [ht.1]
    | cons t' ts' =>
      have ht := h t (by simp)
      have hrest : ∀ x ∈ t' :: ts', x ≠ [] ∧ ∀ c ∈ x, cleanChar c :=
        fun x hx => h x (List.mem_cons_of_mem t hx)
      show parseArgsAux (t ++ ' ' :: joinSpaceChars (t' :: ts')) [] none
        = t :: t' :: ts'
      rw [parseArgsAux_clean_chars t _ [] ht.2, parseArgsAux_cons]
      have hA : ¬((' ' = dquote ∨ ' ' = squote) ∧ (none : Option Char) = none) := by
        rintro ⟨h1 | h1, -⟩ <;> exact absurd h1 (by decide)
      have hB : (none : Option Char) ≠ some ' ' := by simp
      rw [if_neg hA, if_neg hB, if_pos ⟨rfl, rfl⟩]
      rw [List.nil_append]
      rw [if_neg ht.1, ih hrest]

/-- C8: when no token of `parseShellArgs s` contains a space or a quote
character, parsing the single-space join of `parseShellArgs s` yields
`parseShellArgs s` again. -/
theorem claim8_parse_idempotent (s : String)
    (h : ∀ t ∈ parseShellArgs s, ∀ c ∈ t.data, cleanChar c) :
    parseShellArgs (joinSpace (parseShellArgs s)) = parseShellArgs s := by
  unfold parseShellArgs at h ⊢
  rw [joinSpace_data (parseArgsAux s.data [] none), parseArgsAux_join]
  intro t ht
  refine ⟨fun hnil => parseArgsAux_ne_nil s.data [] none (hnil ▸ ht), ?_⟩
  intro c hc
  exact h (String.mk t) (List.mem_map_of_mem _ ht) c hc

/-- C8 (witness): the options string `--parallel --limit=5` parses to
clean tokens, and reparsing their single-space join reproduces them. -/
theorem claim8_parse_idempotent_witness :
    (∀ t ∈ parseShellArgs "--parallel --limit=5", ∀ c ∈ t.data, cleanChar c) ∧
    parseShellArgs (joinSpace (parseShellArgs "--parallel --limit=5"))
      = parseShellArgs "--parallel --limit=5" :=
  ⟨by decide, claim8_parse_idempotent "--parallel --limit=5" (by decide)⟩

end DeployerAction
